import Mathlib

/-!
Verification of the project-assessment scheduler core.

This file embeds, in Lean, the data model and the solver pipeline of the
scheduler (sources: `src/schedule_app/models.py`, `io_json.py`,
`solver/precheck.py`, `solver/slice1.py`, `solver/slice2.py`,
`solver/slice3.py`, and the older `src/solver/slice2.py`), and proves or
refutes the specification claims about them.

Modelling conventions:
* Python `int` is `Int`; `range(n)` for an `Int` bound is
  `List.range n.toNat` (empty for non-positive `n`), matching Python.
* The CP-SAT backend is external. A solve is embedded as a function of the
  configuration and of a `Backend` record carrying the terminal status and
  the returned variable valuation. The posted model is embedded as a
  decidable satisfaction predicate on valuations (one component per
  constraint-emitting block of the source, in source order); the CP-SAT
  contract is that an `OPTIMAL`/`FEASIBLE` outcome valuates every posted
  constraint to true, which theorems take as a hypothesis.
* Python dict indexing that can raise `KeyError` during model building is
  guarded by `ensure_ok` in every driver; the corresponding lookups are
  modelled as vacuously-satisfied on the (unreachable) `none` branch.
* The precheck's f-string error messages are modelled as constructors of
  `Issue` carrying the interpolated data.
-/

/-- One assessment slot (`models.TimeSlot`); `end_` models the Python
field `end`, which is a reserved word in Lean. -/
structure TimeSlot where
  id : String
  date : String
  start : String
  end_ : String
  label : String := ""
deriving DecidableEq

/-- `models.Lecturer`. -/
structure Lecturer where
  id : String
  name : String
  available_slot_ids : List String := []
  max_per_day : Option Int := none
  max_total : Option Int := none
deriving DecidableEq

/-- `models.Student`. -/
structure Student where
  id : String
  name : String
  unavailable_slot_ids : List String := []
deriving DecidableEq

/-- `models.Project`. -/
structure Project where
  id : String
  title : String
  student_ids : List String := []
  supervisor_lecturer_id : String := ""
deriving DecidableEq

/-- `models.Weights`, with the source's default field values. -/
structure Weights where
  span : Int := 1
  workload_balance : Int := 10
  lunch : Int := 3
deriving DecidableEq

/-- `models.SolverParams`, with the source's default field values.
Note the source declares `num_search_workers` (default 8) and no
`num_workers` field. -/
structure SolverParams where
  max_time_in_seconds : ℚ := 10
  num_search_workers : Int := 8
deriving DecidableEq

/-- `models.Constraints`, with the source's default field values. -/
structure Constraints where
  rooms : Int := 1
  panel_size : Int := 2
  must_include_supervisor : Bool := true
  lunch_slot_ids : List String := []
  weights : Weights := {}
  solver : SolverParams := {}
deriving DecidableEq

/-- `models.Config` (the `meta` mapping is opaque to the core). -/
structure Config where
  meta : List (String × String) := []
  timeslots : List TimeSlot := []
  lecturers : List Lecturer := []
  students : List Student := []
  projects : List Project := []
  constraints : Constraints := {}
deriving DecidableEq

/-- Python attribute access on a `SolverParams` record: `getattr(sp, a)`
returns the field when `a` names a declared field and raises
`AttributeError` (modelled as `none`) otherwise. The numeric field values
are returned as rationals. -/
def SolverParams.attr (sp : SolverParams) : String → Option ℚ
  | "max_time_in_seconds" => some sp.max_time_in_seconds
  | "num_search_workers" => some (sp.num_search_workers : ℚ)
  | _ => none

/-- The attribute of `cfg.constraints.solver` read by
`schedule_app/solver/slice1.py` line 85 to set the backend worker count. -/
def slice1WorkerParam : String := "num_workers"

/-- The attribute of `cfg.constraints.solver` read by
`schedule_app/solver/slice2.py` line 149. -/
def slice2WorkerParam : String := "num_workers"

/-- The attribute of `cfg.constraints.solver` read by
`schedule_app/solver/slice3.py` line 181. -/
def slice3WorkerParam : String := "num_workers"

/-- The attribute of `cfg.constraints.solver` read by the older driver
`src/solver/slice2.py` line 118. -/
def oldSlice2WorkerParam : String := "num_search_workers"

/-- The worker-count entry built by `io_json.load_config` (line 130):
`int(solver_raw.get("num_search_workers", 8))`, stored into the
`num_search_workers` field. The loader reads no `num_workers` key. -/
def loadNumSearchWorkers (solver_raw : List (String × Int)) : Int :=
  (solver_raw.lookup "num_search_workers").getD 8

/-- Sentinel used for always-in-range list indexing. -/
def nilTimeSlot : TimeSlot := { id := "", date := "", start := "", end_ := "" }

/-- Sentinel used for always-in-range list indexing. -/
def nilLecturer : Lecturer := { id := "", name := "" }

/-- Sentinel used for always-in-range list indexing. -/
def nilStudent : Student := { id := "", name := "" }

/-- Sentinel used for always-in-range list indexing. -/
def nilProject : Project := { id := "", title := "" }

/-- The id-to-index dictionary `{item.id: i for i, item in enumerate(items)}`
of `precheck.build_index`: when an id occurs several times, the later
assignment overwrites the earlier one, so the dictionary holds the index of
the LAST occurrence. -/
def idDict : List String → String → Option Nat
  | [], _ => none
  | i :: rest, key =>
    match idDict rest key with
    | some j => some (j + 1)
    | none => if i = key then some 0 else none

/-- `precheck.IdIndex`. -/
structure IdIndex where
  slot_id_to_idx : String → Option Nat
  lecturer_id_to_idx : String → Option Nat
  student_id_to_idx : String → Option Nat
  project_id_to_idx : String → Option Nat

/-- `precheck.build_index` — pure dictionary building, no failure path. -/
def build_index (cfg : Config) : IdIndex :=
  { slot_id_to_idx := idDict (cfg.timeslots.map (·.id))
    lecturer_id_to_idx := idDict (cfg.lecturers.map (·.id))
    student_id_to_idx := idDict (cfg.students.map (·.id))
    project_id_to_idx := idDict (cfg.projects.map (·.id)) }

/-- The precheck's hard errors and soft warnings; each constructor models
one f-string message of `precheck.precheck`, carrying the interpolated
data. -/
inductive Issue where
  | capacity (rooms : Int) (slots : Nat) (projects : Nat)
  | panelTooLarge (panel : Int) (lecturers : Nat)
  | noSupervisor (pid : String)
  | unknownSupervisor (pid : String) (sup : String)
  | supervisorNoSlots (pid : String) (lid : String)
  | unknownStudent (pid : String) (sid : String)
  | lecturerUnknownSlots (lid : String) (bad : List String)
  | lecturerNoSlots (lid : String)
  | studentUnknownSlots (sid : String) (bad : List String)
  | unknownLunch (bad : List String)
deriving DecidableEq

/-- The errors contributed by one project in `precheck.precheck`'s project
loop: the supervisor checks (when `must_include_supervisor`), then one
error per unknown student id. `get_lecturer` is a first-match scan of
`cfg.lecturers`. -/
def projectIssues (cfg : Config) (p : Project) : List Issue :=
  (if cfg.constraints.must_include_supervisor then
    (if p.supervisor_lecturer_id = "" then
      [Issue.noSupervisor p.id]
    else if ((build_index cfg).lecturer_id_to_idx p.supervisor_lecturer_id).isNone then
      [Issue.unknownSupervisor p.id p.supervisor_lecturer_id]
    else
      match cfg.lecturers.find? (fun l => l.id = p.supervisor_lecturer_id) with
      | some sup => if sup.available_slot_ids = [] then [Issue.supervisorNoSlots p.id sup.id] else []
      | none => [])
  else [])
  ++ p.student_ids.filterMap (fun sid =>
      if ((build_index cfg).student_id_to_idx sid).isNone then
        some (Issue.unknownStudent p.id sid)
      else none)

/-- `precheck.precheck`: the pair (errors, warnings), with the error list
assembled in source order. Membership of a slot id in
`set(idx.slot_id_to_idx)` is membership among the timeslot ids. -/
def precheck (cfg : Config) : List Issue × List Issue :=
  let idx := build_index cfg
  let capacity : Int := cfg.constraints.rooms * (cfg.timeslots.length : Int)
  let capErr :=
    if capacity < (cfg.projects.length : Int) then
      [Issue.capacity cfg.constraints.rooms cfg.timeslots.length cfg.projects.length]
    else []
  let panelErr :=
    if (cfg.lecturers.length : Int) < cfg.constraints.panel_size then
      [Issue.panelTooLarge cfg.constraints.panel_size cfg.lecturers.length]
    else []
  let projErrs := cfg.projects.flatMap (projectIssues cfg)
  let lecErrs := cfg.lecturers.flatMap (fun l =>
    let bad := l.available_slot_ids.filter (fun s => (idx.slot_id_to_idx s).isNone)
    if bad = [] then [] else [Issue.lecturerUnknownSlots l.id bad])
  let lecWarns := cfg.lecturers.flatMap (fun l =>
    if l.available_slot_ids = [] then [Issue.lecturerNoSlots l.id] else [])
  let studErrs := cfg.students.flatMap (fun s =>
    let bad := s.unavailable_slot_ids.filter (fun t => (idx.slot_id_to_idx t).isNone)
    if bad = [] then [] else [Issue.studentUnknownSlots s.id bad])
  let lunchBad := cfg.constraints.lunch_slot_ids.filter (fun t => (idx.slot_id_to_idx t).isNone)
  let lunchErr := if lunchBad = [] then [] else [Issue.unknownLunch lunchBad]
  (capErr ++ panelErr ++ projErrs ++ lecErrs ++ studErrs ++ lunchErr, lecWarns)

/-- The hard errors of the precheck. -/
def precheckErrors (cfg : Config) : List Issue := (precheck cfg).1

/-- `precheck.ensure_ok`: raises `PrecheckError` (modelled as
`Except.error` carrying the error list) when hard errors are present. -/
def ensure_ok (cfg : Config) : Except (List Issue) Unit :=
  match precheckErrors cfg with
  | [] => Except.ok ()
  | es => Except.error es

/-- A valuation of the decision and auxiliary variables of one solve, as
returned by the backend (`solver.value` / `solver.objective_value`). -/
structure Assignment where
  x : Nat → Nat → Nat → Bool
  y : Nat → Nat → Bool
  z : Nat → Nat → Nat → Nat → Bool
  last_t : Int
  lunch_penalty : Int
  count : Nat → Int
  max_c : Int
  min_c : Int
  imbalance : Int

/-- The CP-SAT terminal statuses distinguished by `_status_str`. -/
inductive CpStatus where
  | OPTIMAL
  | FEASIBLE
  | INFEASIBLE
  | MODEL_INVALID
  | UNKNOWN
deriving DecidableEq

/-- `_status_str` of the slice drivers: the classified status name
(anything outside the four known codes reads "UNKNOWN"). -/
def statusName : CpStatus → String
  | .OPTIMAL => "OPTIMAL"
  | .FEASIBLE => "FEASIBLE"
  | .INFEASIBLE => "INFEASIBLE"
  | .MODEL_INVALID => "MODEL_INVALID"
  | .UNKNOWN => "UNKNOWN"

/-- What the external CP-SAT run hands back to the driver: terminal
status, the variable valuation of the returned solution, and the run
statistics. -/
structure Backend where
  status : CpStatus
  val : Assignment
  wall_time : ℚ
  num_conflicts : Int

/-- 0/1 value of a Boolean variable inside a linear constraint. -/
def b2i (b : Bool) : Int := if b then 1 else 0

/-- Sum of an integer-valued term over a list of indices. -/
def isum (l : List Nat) (f : Nat → Int) : Int := (l.map f).sum

/-- `range(R)` over the configured (integer) room count. -/
def rangeR (cfg : Config) : List Nat := List.range cfg.constraints.rooms.toNat

/-- H1 of the slice drivers: each project scheduled exactly once. -/
def exactlyOnceOk (cfg : Config) (v : Assignment) : Bool :=
  (List.range cfg.projects.length).all fun p =>
    decide (isum (List.range cfg.timeslots.length)
      (fun t => isum (rangeR cfg) (fun r => b2i (v.x p t r))) = 1)

/-- H2: at most one project per (slot, room) (`add_at_most_one`). -/
def atMostOneOk (cfg : Config) (v : Assignment) : Bool :=
  (List.range cfg.timeslots.length).all fun t =>
    (rangeR cfg).all fun r =>
      decide (isum (List.range cfg.projects.length) (fun p => b2i (v.x p t r)) ≤ 1)

/-- H3: student unavailability, `x[p, t, r] = 0` for every blocked slot of
the project's students. Python builds the union set `blocked` first;
satisfaction is the same constraint per (student, slot id). The dictionary
lookups raise `KeyError` on ids unknown to the index; that is unreachable
after `ensure_ok` and modelled as vacuously satisfied. -/
def studentUnavailOk (cfg : Config) (v : Assignment) : Bool :=
  (List.range cfg.projects.length).all fun p =>
    ((cfg.projects.getD p nilProject).student_ids).all fun sid =>
      match (build_index cfg).student_id_to_idx sid with
      | some si =>
        ((cfg.students.getD si nilStudent).unavailable_slot_ids).all fun slotid =>
          match (build_index cfg).slot_id_to_idx slotid with
          | some t => (rangeR cfg).all fun r => v.x p t r = false
          | none => true
      | none => true

/-- Domain of the auxiliary `last_t = new_int_var(0, max(T - 1, 0))`. -/
def lastTDomainOk (cfg : Config) (v : Assignment) : Bool :=
  decide (0 ≤ v.last_t) && decide (v.last_t ≤ max ((cfg.timeslots.length : Int) - 1) 0)

/-- Compactness coupling: `last_t >= t` whenever `x[p, t, r]` holds
(`only_enforce_if`). -/
def lastTEnforceOk (cfg : Config) (v : Assignment) : Bool :=
  (List.range cfg.projects.length).all fun p =>
    (List.range cfg.timeslots.length).all fun t =>
      (rangeR cfg).all fun r => !(v.x p t r) || decide ((t : Int) ≤ v.last_t)

/-- The full constraint system posted by `solve_slice1`, in source order. -/
def slice1Sat (cfg : Config) (v : Assignment) : Bool :=
  exactlyOnceOk cfg v && atMostOneOk cfg v && studentUnavailOk cfg v &&
    lastTDomainOk cfg v && lastTEnforceOk cfg v

/-- H5: the linearisation `z <= x`, `z <= y`, `z >= x + y - 1`. -/
def zLinkOk (cfg : Config) (v : Assignment) : Bool :=
  (List.range cfg.projects.length).all fun p =>
    (List.range cfg.lecturers.length).all fun l =>
      (List.range cfg.timeslots.length).all fun t =>
        (rangeR cfg).all fun r =>
          decide (b2i (v.z p l t r) ≤ b2i (v.x p t r)) &&
          decide (b2i (v.z p l t r) ≤ b2i (v.y p l)) &&
          decide (b2i (v.x p t r) + b2i (v.y p l) - 1 ≤ b2i (v.z p l t r))

/-- H4: each panel has exactly `panel_size` members. -/
def panelSizeOk (cfg : Config) (v : Assignment) : Bool :=
  (List.range cfg.projects.length).all fun p =>
    decide (isum (List.range cfg.lecturers.length) (fun l => b2i (v.y p l))
      = cfg.constraints.panel_size)

/-- H6: `y[p, sup] = 1` for every project with a (non-empty) supervisor,
posted only when `must_include_supervisor`. An id absent from the lecturer
index would raise `KeyError` (unreachable after `ensure_ok`). -/
def supervisorOk (cfg : Config) (v : Assignment) : Bool :=
  if cfg.constraints.must_include_supervisor then
    (List.range cfg.projects.length).all fun p =>
      let proj := cfg.projects.getD p nilProject
      if proj.supervisor_lecturer_id = "" then true
      else
        match (build_index cfg).lecturer_id_to_idx proj.supervisor_lecturer_id with
        | some li => v.y p li
        | none => true
  else true

/-- H7: `z[p, l, t, r] = 0` wherever lecturer `l` is unavailable at `t`. -/
def availOk (cfg : Config) (v : Assignment) : Bool :=
  (List.range cfg.lecturers.length).all fun l =>
    (List.range cfg.timeslots.length).all fun t =>
      if ((cfg.lecturers.getD l nilLecturer).available_slot_ids).contains
          ((cfg.timeslots.getD t nilTimeSlot).id) then true
      else
        (List.range cfg.projects.length).all fun p =>
          (rangeR cfg).all fun r => v.z p l t r = false

/-- H8: no lecturer sits in two simultaneous assessments. -/
def noDoubleBookOk (cfg : Config) (v : Assignment) : Bool :=
  (List.range cfg.lecturers.length).all fun l =>
    (List.range cfg.timeslots.length).all fun t =>
      decide (isum (List.range cfg.projects.length)
        (fun p => isum (rangeR cfg) (fun r => b2i (v.z p l t r))) ≤ 1)

/-- H9: per-day cap for lecturers with `max_per_day` set; slots are
grouped by equal `date` (Python's `defaultdict` grouping). -/
def perDayOk (cfg : Config) (v : Assignment) : Bool :=
  let dates := (cfg.timeslots.map (·.date)).dedup
  (List.range cfg.lecturers.length).all fun l =>
    match (cfg.lecturers.getD l nilLecturer).max_per_day with
    | none => true
    | some M =>
      dates.all fun d =>
        decide (isum (List.range cfg.projects.length)
          (fun p => isum ((List.range cfg.timeslots.length).filter
              (fun t => decide ((cfg.timeslots.getD t nilTimeSlot).date = d)))
            (fun t => isum (rangeR cfg) (fun r => b2i (v.z p l t r)))) ≤ M)

/-- The full constraint system posted by `schedule_app/solver/slice2.py`,
in source order. -/
def slice2Sat (cfg : Config) (v : Assignment) : Bool :=
  zLinkOk cfg v && exactlyOnceOk cfg v && atMostOneOk cfg v && panelSizeOk cfg v &&
    supervisorOk cfg v && availOk cfg v && noDoubleBookOk cfg v && perDayOk cfg v &&
    studentUnavailOk cfg v && lastTDomainOk cfg v && lastTEnforceOk cfg v

/-- The constraint system posted by the older `src/solver/slice2.py`: the
same blocks except that no per-day cap is posted. -/
def oldSlice2Sat (cfg : Config) (v : Assignment) : Bool :=
  zLinkOk cfg v && exactlyOnceOk cfg v && atMostOneOk cfg v && panelSizeOk cfg v &&
    supervisorOk cfg v && availOk cfg v && noDoubleBookOk cfg v &&
    studentUnavailOk cfg v && lastTDomainOk cfg v && lastTEnforceOk cfg v

/-- The dense indices of the configured lunch slots in `solve_slice3`: a
Python set comprehension filtering unknown ids, hence deduplicated. -/
def lunchSlots (cfg : Config) : List Nat :=
  (cfg.constraints.lunch_slot_ids.filterMap (build_index cfg).slot_id_to_idx).dedup

/-- Slice-3 lunch term: domain of `lunch_penalty` and its defining
equality (pinned to 0 when no lunch slot is configured). -/
def lunchOk (cfg : Config) (v : Assignment) : Bool :=
  decide (0 ≤ v.lunch_penalty) && decide (v.lunch_penalty ≤ (cfg.projects.length : Int)) &&
  (if (lunchSlots cfg).isEmpty then decide (v.lunch_penalty = 0)
   else decide (v.lunch_penalty =
     isum (List.range cfg.projects.length) (fun p =>
       isum (lunchSlots cfg) (fun t =>
         isum (rangeR cfg) (fun r => b2i (v.x p t r))))))

/-- Slice-3 per-lecturer panel-load counters and their domains. -/
def countOk (cfg : Config) (v : Assignment) : Bool :=
  (List.range cfg.lecturers.length).all fun l =>
    decide (0 ≤ v.count l) && decide (v.count l ≤ (cfg.projects.length : Int)) &&
    decide (v.count l =
      isum (List.range cfg.projects.length) (fun p =>
        isum (List.range cfg.timeslots.length) (fun t =>
          isum (rangeR cfg) (fun r => b2i (v.z p l t r)))))

/-- Slice-3 `add_max_equality` / `add_min_equality` over the counters and
the imbalance equality, with the `[0, P]` domains. With no lecturers the
max/min constraints degenerate (empty operand list, unreachable through
the precheck for positive panel sizes); modelled as vacuously satisfied. -/
def maxMinOk (cfg : Config) (v : Assignment) : Bool :=
  let counts := (List.range cfg.lecturers.length).map v.count
  decide (0 ≤ v.max_c) && decide (v.max_c ≤ (cfg.projects.length : Int)) &&
  decide (0 ≤ v.min_c) && decide (v.min_c ≤ (cfg.projects.length : Int)) &&
  decide (0 ≤ v.imbalance) && decide (v.imbalance ≤ (cfg.projects.length : Int)) &&
  (match counts.max? with | some m => decide (v.max_c = m) | none => true) &&
  (match counts.min? with | some m => decide (v.min_c = m) | none => true) &&
  decide (v.imbalance = v.max_c - v.min_c)

/-- The full constraint system posted by `solve_slice3`, in source order. -/
def slice3Sat (cfg : Config) (v : Assignment) : Bool :=
  zLinkOk cfg v && exactlyOnceOk cfg v && atMostOneOk cfg v && panelSizeOk cfg v &&
    supervisorOk cfg v && availOk cfg v && noDoubleBookOk cfg v && perDayOk cfg v &&
    studentUnavailOk cfg v && lastTDomainOk cfg v && lastTEnforceOk cfg v &&
    lunchOk cfg v && countOk cfg v && maxMinOk cfg v

/-- The slice-3 objective expression: weighted soft terms, each dropped
(not scaled) when its weight is not positive; the constant 0 when all
three are dropped. -/
def slice3Obj (cfg : Config) (v : Assignment) : Int :=
  (if 0 < cfg.constraints.weights.span then cfg.constraints.weights.span * v.last_t else 0) +
  (if 0 < cfg.constraints.weights.workload_balance then
    cfg.constraints.weights.workload_balance * v.imbalance else 0) +
  (if 0 < cfg.constraints.weights.lunch then
    cfg.constraints.weights.lunch * v.lunch_penalty else 0)

/-- `result.ScheduleEntry`. -/
structure ScheduleEntry where
  project_id : String
  timeslot_id : String
  room : Nat
  panel_lecturer_ids : List String := []
deriving DecidableEq

/-- `result.SolveResult`; `stats` is the insertion-ordered mapping. -/
structure SolveResult where
  status : String
  objective_value : Option Int := none
  entries : List ScheduleEntry := []
  diagnostics : List String := []
  stats : List (String × ℚ) := []
deriving DecidableEq

/-- Python `round(w, 3)` on the wall time (Python rounds ties to even;
the tie-break never matters for the claims, which only inspect keys). -/
def pyRound3 (q : ℚ) : ℚ := (round (q * 1000) : ℚ) / 1000

/-- Slice-1 extraction: one entry per `(p, t, r)` with `x[p, t, r] = 1`,
iterated projects-outermost (a list comprehension, no `break`). -/
def slice1Entries (cfg : Config) (v : Assignment) : List ScheduleEntry :=
  (List.range cfg.projects.length).flatMap fun p =>
    (List.range cfg.timeslots.length).flatMap fun t =>
      (rangeR cfg).filterMap fun r =>
        if v.x p t r then
          some { project_id := (cfg.projects.getD p nilProject).id
                 timeslot_id := (cfg.timeslots.getD t nilTimeSlot).id
                 room := r }
        else none

/-- The panel of project `p`: lecturers with `y[p, l] = 1` in
lecturer-index order. -/
def panelOf (cfg : Config) (v : Assignment) (p : Nat) : List String :=
  (List.range cfg.lecturers.length).filterMap fun l =>
    if v.y p l then some ((cfg.lecturers.getD l nilLecturer).id) else none

/-- Slice-2/3 extraction: for each project and slot, the first room with
`x[p, t, r] = 1` (the inner `break` leaves only the room loop). -/
def slice2Entries (cfg : Config) (v : Assignment) : List ScheduleEntry :=
  (List.range cfg.projects.length).flatMap fun p =>
    (List.range cfg.timeslots.length).filterMap fun t =>
      ((rangeR cfg).find? (fun r => v.x p t r)).map fun r =>
        { project_id := (cfg.projects.getD p nilProject).id
          timeslot_id := (cfg.timeslots.getD t nilTimeSlot).id
          room := r
          panel_lecturer_ids := panelOf cfg v p }

/-- Result assembly of `solve_slice1` after the backend run: the
objective value reported by CP-SAT is the objective expression (`last_t`)
under the returned valuation. -/
def slice1Result (cfg : Config) (b : Backend) : SolveResult :=
  let name := statusName b.status
  if name = "OPTIMAL" ∨ name = "FEASIBLE" then
    { status := name
      objective_value := some b.val.last_t
      entries := slice1Entries cfg b.val
      stats := [("num_conflicts", (b.num_conflicts : ℚ)),
                ("wall_time_s", pyRound3 b.wall_time)] }
  else
    { status := name, diagnostics := ["No feasible schedule (slice1)."] }

/-- Result assembly of `schedule_app/solver/slice2.py` (and of the older
`src/solver/slice2.py`, whose extraction code is identical): note that no
`stats` entry is populated on success. -/
def slice2Result (cfg : Config) (b : Backend) : SolveResult :=
  let name := statusName b.status
  if name = "OPTIMAL" ∨ name = "FEASIBLE" then
    { status := name
      objective_value := some b.val.last_t
      entries := slice2Entries cfg b.val }
  else
    { status := name, diagnostics := ["No feasible schedule (slice2)."] }

/-- Result assembly of `solve_slice3`. -/
def slice3Result (cfg : Config) (b : Backend) : SolveResult :=
  let name := statusName b.status
  if name = "OPTIMAL" ∨ name = "FEASIBLE" then
    { status := name
      objective_value := some (slice3Obj cfg b.val)
      entries := slice2Entries cfg b.val
      stats := [("last_t", (b.val.last_t : ℚ)),
                ("imbalance", (b.val.imbalance : ℚ)),
                ("lunch_penalty", (b.val.lunch_penalty : ℚ)),
                ("wall_time_s", pyRound3 b.wall_time)] }
  else
    { status := name, diagnostics := ["No feasible schedule (slice3)."] }

/-- `solve_slice1`, as a function of the external backend outcome: the
driver first runs `ensure_ok` (raising `PrecheckError` on hard errors) and
only then builds and solves the model. The worker-parameter attribute it
reads is `slice1WorkerParam` (see `SolverParams.attr`). -/
def solveSlice1 (cfg : Config) (b : Backend) : Except (List Issue) SolveResult :=
  match precheckErrors cfg with
  | [] => Except.ok (slice1Result cfg b)
  | es => Except.error es

/-- `schedule_app/solver/slice2.py`'s `solve_slice2`, as a function of the
backend outcome (worker-parameter attribute: `slice2WorkerParam`). -/
def solveSlice2 (cfg : Config) (b : Backend) : Except (List Issue) SolveResult :=
  match precheckErrors cfg with
  | [] => Except.ok (slice2Result cfg b)
  | es => Except.error es

/-- `solve_slice3`, as a function of the backend outcome
(worker-parameter attribute: `slice3WorkerParam`). -/
def solveSlice3 (cfg : Config) (b : Backend) : Except (List Issue) SolveResult :=
  match precheckErrors cfg with
  | [] => Except.ok (slice3Result cfg b)
  | es => Except.error es

/-- The older `src/solver/slice2.py` driver: same pipeline and extraction,
but its model omits the per-day cap (`oldSlice2Sat`) and it reads the
`num_search_workers` attribute (`oldSlice2WorkerParam`). -/
def oldSolveSlice2 (cfg : Config) (b : Backend) : Except (List Issue) SolveResult :=
  match precheckErrors cfg with
  | [] => Except.ok (slice2Result cfg b)
  | es => Except.error es

/-- The position of a timeslot id in the configuration's timeslot
sequence (the timeslot index used by the export ordering of §6.2). -/
def slotIndexOf (cfg : Config) (sid : String) : Nat :=
  ((build_index cfg).slot_id_to_idx sid).getD 0

/-- Lexicographic order on (timeslot index, room) keys. -/
def keyLE (a b : Nat × Nat) : Bool :=
  decide (a.1 < b.1) || (decide (a.1 = b.1) && decide (a.2 ≤ b.2))

/-- Whether an entry list is ordered by `(timeslot_index, room)`. -/
def entriesOrderedBySlotRoom (cfg : Config) : List ScheduleEntry → Bool
  | [] => true
  | [_] => true
  | a :: b :: rest =>
    keyLE (slotIndexOf cfg a.timeslot_id, a.room) (slotIndexOf cfg b.timeslot_id, b.room) &&
      entriesOrderedBySlotRoom cfg (b :: rest)

/-- The all-false, all-zero assignment. -/
def trivAssignment : Assignment :=
  { x := fun _ _ _ => false, y := fun _ _ => false, z := fun _ _ _ _ => false
    last_t := 0, lunch_penalty := 0, count := fun _ => 0
    max_c := 0, min_c := 0, imbalance := 0 }

/-- A backend outcome carrying the trivial assignment (used where the
solver never runs because the precheck raises first). -/
def trivBackend : Backend :=
  { status := .INFEASIBLE, val := trivAssignment, wall_time := 0, num_conflicts := 0 }


/-- Two half-hour slots on one date, as in the repository's test data. -/
def twoSlots : List TimeSlot :=
  [ { id := "TS1", date := "2026-01-01", start := "09:00", end_ := "09:30" },
    { id := "TS2", date := "2026-01-01", start := "09:30", end_ := "10:00" } ]

/-- Slice-1 configuration whose unique feasible schedule places the first
project in the second slot: the sole student of project P1 is unavailable
at TS1 (supervisor enforcement switched off, as slice 1 ignores panels). -/
def cfgC3 : Config :=
  { timeslots := twoSlots
    lecturers := [ { id := "L1", name := "Alice", available_slot_ids := ["TS1", "TS2"] },
                   { id := "L2", name := "Bob", available_slot_ids := ["TS1", "TS2"] } ]
    students := [ { id := "S1", name := "Emma", unavailable_slot_ids := ["TS1"] } ]
    projects := [ { id := "P1", title := "Alpha", student_ids := ["S1"] },
                  { id := "P2", title := "Beta" } ]
    constraints := { rooms := 1, panel_size := 2, must_include_supervisor := false } }

/-- The (unique) satisfying assignment for `cfgC3`: P1 at TS2, P2 at TS1. -/
def asgC3 : Assignment :=
  { trivAssignment with
    x := fun p t r => ((p == 0 && t == 1) || (p == 1 && t == 0)) && r == 0
    last_t := 1 }

/-- Observer: the entries of a returned result (none when the call
raised). -/
def resEntries (e : Except (List Issue) SolveResult) : Option (List ScheduleEntry) :=
  match e with
  | .ok r => some r.entries
  | .error _ => none

/-- Observer: the status string of a returned result. -/
def resStatus (e : Except (List Issue) SolveResult) : Option String :=
  match e with
  | .ok r => some r.status
  | .error _ => none

/-- Observer: the objective value of a returned result. -/
def resObjective (e : Except (List Issue) SolveResult) : Option (Option Int) :=
  match e with
  | .ok r => some r.objective_value
  | .error _ => none

/-- Observer: the stats keys of a returned result, in insertion order. -/
def resStatKeys (e : Except (List Issue) SolveResult) : Option (List String) :=
  match e with
  | .ok r => some (r.stats.map (fun kv => kv.1))
  | .error _ => none

/-- Observer: the issues of a raised `PrecheckError`. -/
def resError (e : Except (List Issue) SolveResult) : Option (List Issue) :=
  match e with
  | .ok _ => none
  | .error es => some es

/-- Scenario F of the spec: one room, one slot, two projects — capacity
1 < 2, so the precheck reports the capacity error. -/
def cfgF : Config :=
  { timeslots := [ { id := "TS1", date := "2026-01-01", start := "09:00", end_ := "09:30" } ]
    lecturers := [ { id := "L1", name := "Alice", available_slot_ids := ["TS1"] },
                   { id := "L2", name := "Bob", available_slot_ids := ["TS1"] } ]
    projects := [ { id := "P1", title := "Alpha", supervisor_lecturer_id := "L1" },
                  { id := "P2", title := "Beta", supervisor_lecturer_id := "L2" } ]
    constraints := { rooms := 1, panel_size := 2 } }

/-- A configuration with zero timeslots and one project: capacity is
0 < 1, so every slice raises `PrecheckError` instead of returning an
`OPTIMAL` empty result. -/
def cfgT0 : Config :=
  { timeslots := []
    lecturers := [ { id := "L1", name := "Alice" }, { id := "L2", name := "Bob" } ]
    projects := [ { id := "P1", title := "Alpha", supervisor_lecturer_id := "L1" } ]
    constraints := { rooms := 1, panel_size := 2 } }

/-- A configuration with no projects that passes the precheck. -/
def cfgP0 : Config :=
  { timeslots := twoSlots
    lecturers := [ { id := "L1", name := "Alice", available_slot_ids := ["TS1", "TS2"] },
                   { id := "L2", name := "Bob", available_slot_ids := ["TS1", "TS2"] } ]
    constraints := { rooms := 1, panel_size := 2 } }

/-- The slice-2 base configuration of the repository's tests: two
projects with supervisors L1 and L2, three fully available lecturers. -/
def cfgA : Config :=
  { timeslots := twoSlots
    lecturers := [ { id := "L1", name := "Alice", available_slot_ids := ["TS1", "TS2"] },
                   { id := "L2", name := "Bob", available_slot_ids := ["TS1", "TS2"] },
                   { id := "L3", name := "Carol", available_slot_ids := ["TS1", "TS2"] } ]
    students := [ { id := "S1", name := "Emma" } ]
    projects := [ { id := "P1", title := "Alpha", student_ids := ["S1"],
                    supervisor_lecturer_id := "L1" },
                  { id := "P2", title := "Beta", supervisor_lecturer_id := "L2" } ]
    constraints := { rooms := 1, panel_size := 2, must_include_supervisor := true } }

/-- A satisfying assignment for the slice-2 model over `cfgA`:
P1 at TS1 with panel (L1, L2), P2 at TS2 with panel (L2, L3). -/
def asgA : Assignment :=
  { trivAssignment with
    x := fun p t r => ((p == 0 && t == 0) || (p == 1 && t == 1)) && r == 0
    y := fun p l => (p == 0 && (l == 0 || l == 1)) || (p == 1 && (l == 1 || l == 2))
    z := fun p l t r =>
      (((p == 0 && t == 0) || (p == 1 && t == 1)) && r == 0) &&
        ((p == 0 && (l == 0 || l == 1)) || (p == 1 && (l == 1 || l == 2)))
    last_t := 1 }

/-- A one-project, one-lecturer slice-3 configuration whose three soft
weights are all zero: the objective is the constant 0. -/
def cfg6 : Config :=
  { timeslots := [ { id := "TS1", date := "2026-01-01", start := "09:00", end_ := "09:30" } ]
    lecturers := [ { id := "L1", name := "Alice", available_slot_ids := ["TS1"] } ]
    projects := [ { id := "P1", title := "Alpha", supervisor_lecturer_id := "L1" } ]
    constraints := { rooms := 1, panel_size := 1, must_include_supervisor := true
                     weights := { span := 0, workload_balance := 0, lunch := 0 } } }

/-- The satisfying slice-3 assignment for `cfg6`. -/
def asg6 : Assignment :=
  { x := fun p t r => p == 0 && t == 0 && r == 0
    y := fun p l => p == 0 && l == 0
    z := fun p l t r => p == 0 && l == 0 && t == 0 && r == 0
    last_t := 0, lunch_penalty := 0
    count := fun l => if l == 0 then 1 else 0
    max_c := 1, min_c := 1, imbalance := 0 }

/-- The per-day-cap configuration of the repository's tests: L1 has
`max_per_day = 1` and supervisor enforcement is off. -/
def cfgD : Config :=
  { timeslots := twoSlots
    lecturers := [ { id := "L1", name := "Alice", available_slot_ids := ["TS1", "TS2"],
                     max_per_day := some 1 },
                   { id := "L2", name := "Bob", available_slot_ids := ["TS1", "TS2"] },
                   { id := "L3", name := "Carol", available_slot_ids := ["TS1", "TS2"] } ]
    projects := [ { id := "P1", title := "Alpha" }, { id := "P2", title := "Beta" } ]
    constraints := { rooms := 1, panel_size := 2, must_include_supervisor := false } }

/-- An assignment placing L1 on both panels on the same day: allowed by
the older slice-2 model, forbidden by the per-day cap of the newer one. -/
def asgD : Assignment :=
  { trivAssignment with
    x := fun p t r => ((p == 0 && t == 0) || (p == 1 && t == 1)) && r == 0
    y := fun p l => (p == 0 && (l == 0 || l == 1)) || (p == 1 && (l == 0 || l == 2))
    z := fun p l t r =>
      (((p == 0 && t == 0) || (p == 1 && t == 1)) && r == 0) &&
        ((p == 0 && (l == 0 || l == 1)) || (p == 1 && (l == 0 || l == 2)))
    last_t := 1 }

/-- A configuration in which `must_include_supervisor` holds but the
project's supervisor id is empty. -/
def cfgC9 : Config :=
  { timeslots := [ { id := "TS1", date := "2026-01-01", start := "09:00", end_ := "09:30" } ]
    lecturers := [ { id := "L1", name := "Alice", available_slot_ids := ["TS1"] },
                   { id := "L2", name := "Bob", available_slot_ids := ["TS1"] } ]
    projects := [ { id := "P1", title := "Alpha" } ]
    constraints := { rooms := 1, panel_size := 2, must_include_supervisor := true } }

/-- A configuration whose timeslot collection repeats the id TS1. -/
def cfgDup : Config :=
  { timeslots := [ { id := "TS1", date := "2026-01-01", start := "09:00", end_ := "09:30" },
                   { id := "TS1", date := "2026-01-01", start := "09:30", end_ := "10:00" } ]
    lecturers := [ { id := "L1", name := "Alice" }, { id := "L2", name := "Bob" } ]
    constraints := { rooms := 1, panel_size := 2 } }

theorem idDict_eq_none_iff (ids : List String) (key : String) :
    idDict ids key = none ↔ key ∉ ids := by
  induction ids with
  | nil => simp [idDict]
  | cons i rest ih =>
    cases h : idDict rest key with
    | some j =>
      have hk : key ∈ rest := by
        by_contra hc
        have := ih.mpr hc
        rw [h] at this
        exact Option.noConfusion this
      simp only [idDict, h]
      simp [List.mem_cons, hk]
    | none =>
      have hk : key ∉ rest := ih.mp h
      simp only [idDict, h]
      by_cases hik : i = key
      · subst hik
        simp [List.mem_cons]
      · simp only [if_neg hik, List.mem_cons]
        simp [hk]
        exact fun hc => hik hc.symm

theorem idDict_last_occurrence (ids : List String) (key : String) (j : Nat) :
    idDict ids key = some j ↔
      ids.get? j = some key ∧ ∀ k, k < ids.length → j < k → ids.get? k ≠ some key := by
  induction ids generalizing j with
  | nil => simp [idDict]
  | cons i rest ih =>
    cases h : idDict rest key with
    | some j' =>
      have hspec := (ih j').mp h
      simp only [idDict, h]
      constructor
      · rintro hj
        have hje : j = j' + 1 := by
          have := Option.some.inj hj
          omega
        subst hje
        refine ⟨by simpa using hspec.1, ?_⟩
        intro k hk hjk
        match k, hjk with
        | (k'+1), _ =>
          simp only [List.get?_cons_succ]
          exact hspec.2 k' (by simp at hk; omega) (by omega)
      · rintro ⟨hget, hafter⟩
        match j with
        | 0 =>
          exfalso
          have hj' : rest.get? j' = some key := hspec.1
          have hlt : j' < rest.length := by
            obtain ⟨hl, _⟩ := List.get?_eq_some.mp hj'
            exact hl
          have := hafter (j' + 1) (by simp; omega) (by omega)
          simp only [List.get?_cons_succ] at this
          exact this hj'
        | (j''+1) =>
          have heq : idDict rest key = some j'' := by
            apply (ih j'').mpr
            refine ⟨by simpa using hget, ?_⟩
            intro k hk hjk
            have := hafter (k+1) (by simp; omega) (by omega)
            simpa using this
          rw [h] at heq
          have := Option.some.inj heq
          simp [this]
    | none =>
      have hnot : key ∉ rest := (idDict_eq_none_iff rest key).mp h
      simp only [idDict, h]
      by_cases hik : i = key
      · simp only [if_pos hik]
        constructor
        · rintro hj
          have hje : j = 0 := (Option.some.inj hj).symm
          subst hje
          refine ⟨by simp [hik], ?_⟩
          intro k hk hjk
          match k with
          | (k'+1) =>
            simp only [List.get?_cons_succ]
            intro hc
            exact hnot (List.get?_mem hc)
        · rintro ⟨hget, hafter⟩
          match j with
          | 0 => rfl
          | (j''+1) =>
            exfalso
            simp only [List.get?_cons_succ] at hget
            exact hnot (List.get?_mem hget)
      · simp only [if_neg hik]
        constructor
        · rintro hj
          exact Option.noConfusion hj
        · rintro ⟨hget, hafter⟩
          exfalso
          match j with
          | 0 =>
            simp only [List.get?_cons_zero] at hget
            exact hik (Option.some.inj hget)
          | (j''+1) =>
            simp only [List.get?_cons_succ] at hget
            exact hnot (List.get?_mem hget)

theorem idDict_lt_length (ids : List String) (key : String) (j : Nat)
    (h : idDict ids key = some j) : j < ids.length := by
  have hspec := (idDict_last_occurrence ids key j).mp h
  obtain ⟨hl, _⟩ := List.get?_eq_some.mp hspec.1
  exact hl

theorem flatMap_ne_nil_of_mem {α β : Type} (l : List α) (a : α) (f : α → List β)
    (ha : a ∈ l) (hf : f a ≠ []) : l.flatMap f ≠ [] :=
  fun hc => hf (List.flatMap_eq_nil_iff.mp hc a ha)

theorem precheckErrors_ne_nil_of_capacity (cfg : Config)
    (h : cfg.constraints.rooms * (cfg.timeslots.length : Int) < (cfg.projects.length : Int)) :
    precheckErrors cfg ≠ [] := by
  simp only [precheckErrors, precheck]
  rw [if_pos h]
  simp

theorem precheckErrors_ne_nil_of_noSupervisor (cfg : Config) (p : Project)
    (hmust : cfg.constraints.must_include_supervisor = true)
    (hp : p ∈ cfg.projects) (hsup : p.supervisor_lecturer_id = "") :
    precheckErrors cfg ≠ [] := by
  intro hc
  simp only [precheckErrors, precheck, List.append_eq_nil] at hc
  obtain ⟨⟨⟨⟨⟨-, -⟩, hproj⟩, -⟩, -⟩, -⟩ := hc
  have hproj := List.flatMap_eq_nil_iff.mp hproj p hp
  simp [projectIssues, hmust, hsup] at hproj

theorem supervisor_lookup_isSome (cfg : Config) (p : Project)
    (hpre : precheckErrors cfg = [])
    (hmust : cfg.constraints.must_include_supervisor = true)
    (hp : p ∈ cfg.projects) (hsup : p.supervisor_lecturer_id ≠ "") :
    ((build_index cfg).lecturer_id_to_idx p.supervisor_lecturer_id).isSome := by
  by_contra hc
  rw [Option.not_isSome_iff_eq_none] at hc
  have hne : projectIssues cfg p ≠ [] := by
    simp [projectIssues, hmust, hsup, hc]
  simp only [precheckErrors, precheck, List.append_eq_nil] at hpre
  obtain ⟨⟨⟨⟨⟨-, -⟩, hproj⟩, -⟩, -⟩, -⟩ := hpre
  exact hne (List.flatMap_eq_nil_iff.mp hproj p hp)

/-- C2, as stated, is false: on Scenario F (one room, one slot, two
projects — so rooms times timeslots is less than projects) every slice
driver raises `PrecheckError` with the capacity error instead of
returning a `SolveResult` with status INFEASIBLE, because the core calls
`ensure_ok` before building the model. -/
theorem c2_capacity_raises_cex :
    cfgF.constraints.rooms * (cfgF.timeslots.length : Int) < (cfgF.projects.length : Int) ∧
    resError (solveSlice1 cfgF trivBackend) = some [Issue.capacity 1 1 2] ∧
    resError (solveSlice2 cfgF trivBackend) = some [Issue.capacity 1 1 2] ∧
    resError (solveSlice3 cfgF trivBackend) = some [Issue.capacity 1 1 2] := by
  decide

/-- C2 (amended): the core invokes the precheck at the start of every
slice; for every configuration with rooms times timeslots strictly less
than the number of projects, every slice driver raises `PrecheckError`
(carrying the precheck's hard errors, which include the capacity error)
before the solver runs. -/
theorem c2_solve_raises_on_capacity (cfg : Config) (b : Backend)
    (h : cfg.constraints.rooms * (cfg.timeslots.length : Int) < (cfg.projects.length : Int)) :
    resError (solveSlice1 cfg b) = some (precheckErrors cfg) ∧
    resError (solveSlice2 cfg b) = some (precheckErrors cfg) ∧
    resError (solveSlice3 cfg b) = some (precheckErrors cfg) ∧
    precheckErrors cfg ≠ [] := by
  have hne := precheckErrors_ne_nil_of_capacity cfg h
  cases hE : precheckErrors cfg with
  | nil => exact absurd hE hne
  | cons a l =>
    refine ⟨?_, ?_, ?_, by simp⟩ <;>
      simp [solveSlice1, solveSlice2, solveSlice3, resError, hE]

/-- Witness for `c2_solve_raises_on_capacity` at Scenario F. -/
theorem c2_solve_raises_on_capacity_witness :
    resError (solveSlice1 cfgF trivBackend) = some (precheckErrors cfgF) ∧
    resError (solveSlice2 cfgF trivBackend) = some (precheckErrors cfgF) ∧
    resError (solveSlice3 cfgF trivBackend) = some (precheckErrors cfgF) ∧
    precheckErrors cfgF ≠ [] :=
  c2_solve_raises_on_capacity cfgF trivBackend (by decide)

/-- C9: when `must_include_supervisor` holds and some project's
`supervisor_lecturer_id` is empty, every slice driver raises
`PrecheckError` (the precheck emits the missing-supervisor hard error)
instead of returning a `SolveResult`. -/
theorem c9_empty_supervisor_raises (cfg : Config) (b : Backend) (p : Project)
    (hmust : cfg.constraints.must_include_supervisor = true)
    (hp : p ∈ cfg.projects) (hsup : p.supervisor_lecturer_id = "") :
    resError (solveSlice1 cfg b) = some (precheckErrors cfg) ∧
    resError (solveSlice2 cfg b) = some (precheckErrors cfg) ∧
    resError (solveSlice3 cfg b) = some (precheckErrors cfg) ∧
    precheckErrors cfg ≠ [] := by
  have hne := precheckErrors_ne_nil_of_noSupervisor cfg p hmust hp hsup
  cases hE : precheckErrors cfg with
  | nil => exact absurd hE hne
  | cons a l =>
    refine ⟨?_, ?_, ?_, by simp⟩ <;>
      simp [solveSlice1, solveSlice2, solveSlice3, resError, hE]

/-- Witness for `c9_empty_supervisor_raises` on a concrete configuration
whose only project has no supervisor. -/
theorem c9_empty_supervisor_raises_witness :
    resError (solveSlice1 cfgC9 trivBackend) = some (precheckErrors cfgC9) ∧
    resError (solveSlice2 cfgC9 trivBackend) = some (precheckErrors cfgC9) ∧
    resError (solveSlice3 cfgC9 trivBackend) = some (precheckErrors cfgC9) ∧
    precheckErrors cfgC9 ≠ [] :=
  c9_empty_supervisor_raises cfgC9 trivBackend
    { id := "P1", title := "Alpha" } (by decide) (by decide) (by decide)

theorem isum_b2i_eq_countP (l : List Nat) (f : Nat → Bool) :
    isum l (fun a => b2i (f a)) = (l.countP f : Int) := by
  induction l with
  | nil => simp [isum]
  | cons a l ih =>
    simp only [isum, List.map_cons, List.sum_cons] at ih ⊢
    rw [List.countP_cons, ih]
    cases h : f a <;> simp [b2i, h] <;> push_cast <;> omega

theorem isum_isum_eq_countP (T R : List Nat) (f : Nat → Nat → Bool) :
    isum T (fun t => isum R (fun r => b2i (f t r))) =
      ((T.flatMap fun t => R.map fun r => (t, r)).countP fun q => f q.1 q.2 : Int) := by
  induction T with
  | nil => simp [isum]
  | cons t T ih =>
    have hstep : isum (t :: T) (fun t => isum R fun r => b2i (f t r)) =
        isum R (fun r => b2i (f t r)) + isum T (fun t => isum R fun r => b2i (f t r)) := by
      simp [isum]
    rw [hstep, ih, isum_b2i_eq_countP]
    simp only [List.flatMap_cons, List.countP_append]
    have hmap : ((R.map fun r => (t, r)).countP fun q => f q.1 q.2) = R.countP (f t) := by
      rw [List.countP_map]
      rfl
    rw [hmap]
    push_cast
    ring

theorem countP_eq_one_unique {α : Type} (l : List α) (p : α → Bool) (h : l.countP p = 1) :
    ∃ a ∈ l, p a = true ∧ ∀ b ∈ l, p b = true → b = a := by
  rw [List.countP_eq_length_filter] at h
  obtain ⟨a, ha⟩ := List.length_eq_one.mp h
  have hmem : a ∈ l.filter p := by simp [ha]
  have hma := List.mem_filter.mp hmem
  refine ⟨a, hma.1, hma.2, ?_⟩
  intro b hb hpb
  have : b ∈ l.filter p := List.mem_filter.mpr ⟨hb, hpb⟩
  rw [ha] at this
  simpa using this

theorem exists_unique_cell (T R : List Nat) (f : Nat → Nat → Bool)
    (h : isum T (fun t => isum R (fun r => b2i (f t r))) = 1) :
    ∃ t₀ ∈ T, ∃ r₀ ∈ R, f t₀ r₀ = true ∧
      ∀ t ∈ T, ∀ r ∈ R, f t r = true → t = t₀ ∧ r = r₀ := by
  rw [isum_isum_eq_countP] at h
  have hc : ((T.flatMap fun t => R.map fun r => (t, r)).countP fun q => f q.1 q.2) = 1 := by
    exact_mod_cast h
  obtain ⟨q₀, hq₀mem, hq₀p, huniq⟩ := countP_eq_one_unique _ _ hc
  obtain ⟨t₀, ht₀, hq₀⟩ := List.mem_flatMap.mp hq₀mem
  obtain ⟨r₀, hr₀, hq₀e⟩ := List.mem_map.mp hq₀
  subst hq₀e
  refine ⟨t₀, ht₀, r₀, hr₀, hq₀p, ?_⟩
  intro t ht r hr hf
  have hmem : (t, r) ∈ (T.flatMap fun t => R.map fun r => (t, r)) :=
    List.mem_flatMap.mpr ⟨t, ht, List.mem_map.mpr ⟨r, hr, rfl⟩⟩
  have := huniq (t, r) hmem hf
  exact ⟨congrArg Prod.fst this, congrArg Prod.snd this⟩

theorem filterMap_if_singleton {α β : Type} (R : List α) (f : α → Bool) (g : α → β)
    (r₀ : α) (hnd : R.Nodup) (hr : r₀ ∈ R) (hf : f r₀ = true)
    (huniq : ∀ r ∈ R, f r = true → r = r₀) :
    R.filterMap (fun r => if f r then some (g r) else none) = [g r₀] := by
  induction R with
  | nil => cases hr
  | cons a R ih =>
    rcases List.mem_cons.mp hr with rfl | hrR
    · have hrest : ∀ r ∈ R, f r = false := by
        intro r hrR'
        cases hfr : f r with
        | false => rfl
        | true =>
          have heq := huniq r (List.mem_cons_of_mem _ hrR') hfr
          subst heq
          exact absurd hrR' (List.nodup_cons.mp hnd).1
      have htail : R.filterMap (fun r => if f r then some (g r) else none) = [] := by
        rw [List.filterMap_eq_nil_iff]
        intro r hrR'
        simp [hrest r hrR']
      simp [List.filterMap_cons, hf, htail]
    · have ha : f a = false := by
        cases hfa : f a with
        | false => rfl
        | true =>
          have heq := huniq a (List.mem_cons_self a R) hfa
          subst heq
          exact absurd hrR (List.nodup_cons.mp hnd).1
      simp only [List.filterMap_cons, ha, Bool.false_eq_true, if_false]
      exact ih (List.nodup_cons.mp hnd).2 hrR
        (fun r hr' hfr => huniq r (List.mem_cons_of_mem _ hr') hfr)

theorem filterMap_if_nil {α β : Type} (R : List α) (f : α → Bool) (g : α → β)
    (h : ∀ r ∈ R, f r = false) :
    R.filterMap (fun r => if f r then some (g r) else none) = [] := by
  rw [List.filterMap_eq_nil_iff]
  intro r hr
  simp [h r hr]

theorem find?_unique {α : Type} (R : List α) (f : α → Bool) (r₀ : α)
    (hr : r₀ ∈ R) (hf : f r₀ = true) (huniq : ∀ r ∈ R, f r = true → r = r₀) :
    R.find? f = some r₀ := by
  induction R with
  | nil => cases hr
  | cons a R ih =>
    cases hfa : f a with
    | true =>
      have heq := huniq a (List.mem_cons_self a R) hfa
      subst heq
      simp [List.find?_cons, hfa]
    | false =>
      have hrR : r₀ ∈ R := by
        rcases List.mem_cons.mp hr with rfl | h
        · rw [hf] at hfa; cases hfa
        · exact h
      simp only [List.find?_cons, hfa]
      exact ih hrR (fun r h' hf' => huniq r (List.mem_cons_of_mem _ h') hf')

theorem flatMap_filterMap_if_singleton {β : Type} (T R : List Nat) (f : Nat → Nat → Bool)
    (g : Nat → Nat → β) (hndT : T.Nodup) (hndR : R.Nodup) (t₀ r₀ : Nat)
    (ht₀ : t₀ ∈ T) (hr₀ : r₀ ∈ R) (hf : f t₀ r₀ = true)
    (huniq : ∀ t ∈ T, ∀ r ∈ R, f t r = true → t = t₀ ∧ r = r₀) :
    (T.flatMap fun t => R.filterMap fun r => if f t r then some (g t r) else none) =
      [g t₀ r₀] := by
  induction T with
  | nil => cases ht₀
  | cons a T ih =>
    rcases List.mem_cons.mp ht₀ with rfl | hT
    · have hhead :
          (R.filterMap fun r => if f t₀ r then some (g t₀ r) else none) = [g t₀ r₀] :=
        filterMap_if_singleton R (f t₀) (g t₀) r₀ hndR hr₀ hf
          (fun r hr hfr => (huniq t₀ (List.mem_cons_self _ _) r hr hfr).2)
      have htail : (T.flatMap fun t => R.filterMap fun r =>
          if f t r then some (g t r) else none) = [] := by
        rw [List.flatMap_eq_nil_iff]
        intro t ht
        apply filterMap_if_nil
        intro r hr
        cases hfr : f t r with
        | false => rfl
        | true =>
          have := (huniq t (List.mem_cons_of_mem _ ht) r hr hfr).1
          subst this
          exact absurd ht (List.nodup_cons.mp hndT).1
      simp [List.flatMap_cons, hhead, htail]
    · have hhead : (R.filterMap fun r => if f a r then some (g a r) else none) = [] := by
        apply filterMap_if_nil
        intro r hr
        cases hfr : f a r with
        | false => rfl
        | true =>
          have := (huniq a (List.mem_cons_self _ _) r hr hfr).1
          subst this
          exact absurd hT (List.nodup_cons.mp hndT).1
      simp only [List.flatMap_cons, hhead, List.nil_append]
      exact ih (List.nodup_cons.mp hndT).2 hT
        (fun t ht r hr hfr => huniq t (List.mem_cons_of_mem _ ht) r hr hfr)

theorem filterMap_find?_singleton {β : Type} (T R : List Nat) (f : Nat → Nat → Bool)
    (g : Nat → Nat → β) (hndT : T.Nodup) (t₀ r₀ : Nat)
    (ht₀ : t₀ ∈ T) (hr₀ : r₀ ∈ R) (hf : f t₀ r₀ = true)
    (huniq : ∀ t ∈ T, ∀ r ∈ R, f t r = true → t = t₀ ∧ r = r₀) :
    (T.filterMap fun t => (R.find? (f t)).map (g t)) = [g t₀ r₀] := by
  induction T with
  | nil => cases ht₀
  | cons a T ih =>
    rcases List.mem_cons.mp ht₀ with rfl | hT
    · have hfind : R.find? (f t₀) = some r₀ :=
        find?_unique R (f t₀) r₀ hr₀ hf
          (fun r hr hfr => (huniq t₀ (List.mem_cons_self _ _) r hr hfr).2)
      have htail : (T.filterMap fun t => (R.find? (f t)).map (g t)) = [] := by
        rw [List.filterMap_eq_nil_iff]
        intro t ht
        have hnone : R.find? (f t) = none := by
          rw [List.find?_eq_none]
          intro r hr
          cases hfr : f t r with
          | false => simp
          | true =>
            have := (huniq t (List.mem_cons_of_mem _ ht) r hr hfr).1
            subst this
            exact absurd ht (List.nodup_cons.mp hndT).1
        simp [hnone]
      simp [List.filterMap_cons, hfind, htail]
    · have hnone : R.find? (f a) = none := by
        rw [List.find?_eq_none]
        intro r hr
        cases hfr : f a r with
        | false => simp
        | true =>
          have := (huniq a (List.mem_cons_self _ _) r hr hfr).1
          subst this
          exact absurd hT (List.nodup_cons.mp hndT).1
      simp only [List.filterMap_cons, hnone, Option.map_none']
      exact ih (List.nodup_cons.mp hndT).2 hT
        (fun t ht r hr hfr => huniq t (List.mem_cons_of_mem _ ht) r hr hfr)

theorem map_proj_of_flatMap_singletons {α β γ : Type} (l : List α) (inner : α → List β)
    (proj : β → γ) (val : α → γ)
    (h : ∀ a ∈ l, ∃ b, inner a = [b] ∧ proj b = val a) :
    (l.flatMap inner).map proj = l.map val := by
  induction l with
  | nil => simp
  | cons a l ih =>
    obtain ⟨b, hb, hproj⟩ := h a (List.mem_cons_self _ _)
    simp only [List.flatMap_cons, List.map_append, List.map_cons, hb, List.map_nil, hproj]
    rw [ih (fun a' ha' => h a' (List.mem_cons_of_mem _ ha'))]
    rfl

theorem map_getD_range {α β : Type} (l : List α) (d : α) (f : α → β) :
    (List.range l.length).map (fun i => f (l.getD i d)) = l.map f := by
  induction l with
  | nil => simp
  | cons a l ih =>
    rw [List.length_cons, List.range_succ_eq_map]
    simp only [List.map_cons, List.map_map]
    have hcomp : ((fun i => f ((a :: l).getD i d)) ∘ (· + 1)) = fun i => f (l.getD i d) := by
      funext i
      simp [List.getD_cons_succ]
    rw [hcomp, ih]
    simp

theorem slice1Entries_project_ids (cfg : Config) (v : Assignment)
    (h1 : exactlyOnceOk cfg v = true) :
    (slice1Entries cfg v).map (fun e => e.project_id) = cfg.projects.map (fun p => p.id) := by
  have hsing : ∀ p ∈ List.range cfg.projects.length,
      ∃ b, ((List.range cfg.timeslots.length).flatMap fun t =>
          (rangeR cfg).filterMap fun r =>
            if v.x p t r then
              some { project_id := (cfg.projects.getD p nilProject).id
                     timeslot_id := (cfg.timeslots.getD t nilTimeSlot).id
                     room := r : ScheduleEntry }
            else none) = [b] ∧ b.project_id = (cfg.projects.getD p nilProject).id := by
    intro p hp
    simp only [exactlyOnceOk, List.all_eq_true] at h1
    have hsum := of_decide_eq_true (h1 p hp)
    obtain ⟨t₀, ht₀, r₀, hr₀, hf, huniq⟩ := exists_unique_cell _ _ _ hsum
    exact ⟨_, flatMap_filterMap_if_singleton (List.range cfg.timeslots.length) (rangeR cfg)
        (fun t r => v.x p t r)
        (fun t r => ({ project_id := (cfg.projects.getD p nilProject).id
                       timeslot_id := (cfg.timeslots.getD t nilTimeSlot).id
                       room := r } : ScheduleEntry))
        (List.nodup_range _) (List.nodup_range _) t₀ r₀ ht₀ hr₀ hf huniq, rfl⟩
  unfold slice1Entries
  rw [map_proj_of_flatMap_singletons _ _ _ _ hsing]
  exact map_getD_range cfg.projects nilProject (fun p => p.id)

theorem slice2Entries_project_ids (cfg : Config) (v : Assignment)
    (h1 : exactlyOnceOk cfg v = true) :
    (slice2Entries cfg v).map (fun e => e.project_id) = cfg.projects.map (fun p => p.id) := by
  have hsing : ∀ p ∈ List.range cfg.projects.length,
      ∃ b, ((List.range cfg.timeslots.length).filterMap fun t =>
          ((rangeR cfg).find? (fun r => v.x p t r)).map fun r =>
            { project_id := (cfg.projects.getD p nilProject).id
              timeslot_id := (cfg.timeslots.getD t nilTimeSlot).id
              room := r
              panel_lecturer_ids := panelOf cfg v p : ScheduleEntry }) = [b] ∧
        b.project_id = (cfg.projects.getD p nilProject).id := by
    intro p hp
    simp only [exactlyOnceOk, List.all_eq_true] at h1
    have hsum := of_decide_eq_true (h1 p hp)
    obtain ⟨t₀, ht₀, r₀, hr₀, hf, huniq⟩ := exists_unique_cell _ _ _ hsum
    exact ⟨_, filterMap_find?_singleton (List.range cfg.timeslots.length) (rangeR cfg)
        (fun t r => v.x p t r)
        (fun t r => ({ project_id := (cfg.projects.getD p nilProject).id
                       timeslot_id := (cfg.timeslots.getD t nilTimeSlot).id
                       room := r
                       panel_lecturer_ids := panelOf cfg v p } : ScheduleEntry))
        (List.nodup_range _) t₀ r₀ ht₀ hr₀ hf huniq, rfl⟩
  unfold slice2Entries
  rw [map_proj_of_flatMap_singletons _ _ _ _ hsing]
  exact map_getD_range cfg.projects nilProject (fun p => p.id)

/-- C3, as stated, is false: on `cfgC3` the hard constraints force P1
into the second slot and P2 into the first, the extraction emits entries
in project order, and the resulting FEASIBLE entry list is not ordered by
(timeslot_index, room). -/
theorem c3_entries_not_slot_ordered_cex :
    slice1Sat cfgC3 asgC3 = true ∧
    resStatus (solveSlice1 cfgC3 { trivBackend with status := .FEASIBLE, val := asgC3 }) =
      some "FEASIBLE" ∧
    resEntries (solveSlice1 cfgC3 { trivBackend with status := .FEASIBLE, val := asgC3 }) =
      some [ { project_id := "P1", timeslot_id := "TS2", room := 0 },
             { project_id := "P2", timeslot_id := "TS1", room := 0 } ] ∧
    entriesOrderedBySlotRoom cfgC3
      [ { project_id := "P1", timeslot_id := "TS2", room := 0 },
        { project_id := "P2", timeslot_id := "TS1", room := 0 } ] = false := by
  decide

/-- C3 (amended): for every solve call whose result has status OPTIMAL or
FEASIBLE, the entries list is ordered by project index — its sequence of
project ids is exactly the configuration's project-id sequence (one entry
per project) — not by (timeslot_index, room). -/
theorem c3_entries_in_project_order (cfg : Config) (b : Backend)
    (es₁ es₂ : List ScheduleEntry)
    (hsat1 : slice1Sat cfg b.val = true)
    (hsat2 : slice2Sat cfg b.val = true)
    (hst : statusName b.status = "OPTIMAL" ∨ statusName b.status = "FEASIBLE")
    (h1 : resEntries (solveSlice1 cfg b) = some es₁)
    (h2 : resEntries (solveSlice2 cfg b) = some es₂) :
    es₁.map (fun e => e.project_id) = cfg.projects.map (fun p => p.id) ∧
    es₂.map (fun e => e.project_id) = cfg.projects.map (fun p => p.id) := by
  have hx1 : exactlyOnceOk cfg b.val = true := by
    simp only [slice1Sat, Bool.and_eq_true] at hsat1
    exact hsat1.1.1.1.1
  have hx2 : exactlyOnceOk cfg b.val = true := by
    simp only [slice2Sat, Bool.and_eq_true] at hsat2
    exact hsat2.1.1.1.1.1.1.1.1.1.2
  cases hE : precheckErrors cfg with
  | cons a l =>
    simp [solveSlice1, hE, resEntries] at h1
  | nil =>
    have hr1 : slice1Result cfg b =
        { status := statusName b.status
          objective_value := some b.val.last_t
          entries := slice1Entries cfg b.val
          stats := [("num_conflicts", (b.num_conflicts : ℚ)),
                    ("wall_time_s", pyRound3 b.wall_time)] } := by
      unfold slice1Result
      rw [if_pos hst]
    have hr2 : slice2Result cfg b =
        { status := statusName b.status
          objective_value := some b.val.last_t
          entries := slice2Entries cfg b.val } := by
      unfold slice2Result
      rw [if_pos hst]
    simp only [solveSlice1, solveSlice2, hE, hr1, hr2, resEntries, Option.some.injEq] at h1 h2
    constructor
    · rw [← h1]
      exact slice1Entries_project_ids cfg b.val hx1
    · rw [← h2]
      exact slice2Entries_project_ids cfg b.val hx2

/-- Witness for `c3_entries_in_project_order` on the test base
configuration with a concrete FEASIBLE backend outcome. -/
theorem c3_entries_in_project_order_witness :
    ([ { project_id := "P1", timeslot_id := "TS1", room := 0 },
       { project_id := "P2", timeslot_id := "TS2", room := 0 } ] :
        List ScheduleEntry).map (fun e => e.project_id) =
      cfgA.projects.map (fun p => p.id) ∧
    ([ { project_id := "P1", timeslot_id := "TS1", room := 0,
         panel_lecturer_ids := ["L1", "L2"] },
       { project_id := "P2", timeslot_id := "TS2", room := 0,
         panel_lecturer_ids := ["L2", "L3"] } ] :
        List ScheduleEntry).map (fun e => e.project_id) =
      cfgA.projects.map (fun p => p.id) :=
  c3_entries_in_project_order cfgA { trivBackend with status := .FEASIBLE, val := asgA }
    _ _ (by decide) (by decide) (Or.inr (by decide)) (by decide) (by decide)

/-- C4, as stated, is false for slice 2: a FEASIBLE slice-2 result's
stats mapping is empty — it contains neither `wall_time_s` nor
`num_conflicts` (the driver builds its `SolveResult` without `stats`). -/
theorem c4_slice2_stats_empty_cex :
    slice2Sat cfgA asgA = true ∧
    resStatus (solveSlice2 cfgA { trivBackend with status := .FEASIBLE, val := asgA }) =
      some "FEASIBLE" ∧
    resStatKeys (solveSlice2 cfgA { trivBackend with status := .FEASIBLE, val := asgA }) =
      some [] := by
  decide

/-- C4 (amended): for every solve whose result has status OPTIMAL or
FEASIBLE, slice 1 populates stats with exactly the keys `num_conflicts`
and `wall_time_s` (the wall time rounded to milliseconds), slice 3 with
`last_t`, `imbalance`, `lunch_penalty` and `wall_time_s`, while slice 2
populates no stats at all. -/
theorem c4_stats_keys_by_slice (cfg : Config) (b : Backend)
    (hst : statusName b.status = "OPTIMAL" ∨ statusName b.status = "FEASIBLE")
    (hpre : precheckErrors cfg = []) :
    resStatKeys (solveSlice1 cfg b) = some ["num_conflicts", "wall_time_s"] ∧
    resStatKeys (solveSlice2 cfg b) = some [] ∧
    resStatKeys (solveSlice3 cfg b) = some ["last_t", "imbalance", "lunch_penalty", "wall_time_s"] := by
  have hr1 : slice1Result cfg b =
      { status := statusName b.status
        objective_value := some b.val.last_t
        entries := slice1Entries cfg b.val
        stats := [("num_conflicts", (b.num_conflicts : ℚ)),
                  ("wall_time_s", pyRound3 b.wall_time)] } := by
    unfold slice1Result
    rw [if_pos hst]
  have hr2 : slice2Result cfg b =
      { status := statusName b.status
        objective_value := some b.val.last_t
        entries := slice2Entries cfg b.val } := by
    unfold slice2Result
    rw [if_pos hst]
  have hr3 : slice3Result cfg b =
      { status := statusName b.status
        objective_value := some (slice3Obj cfg b.val)
        entries := slice2Entries cfg b.val
        stats := [("last_t", (b.val.last_t : ℚ)),
                  ("imbalance", (b.val.imbalance : ℚ)),
                  ("lunch_penalty", (b.val.lunch_penalty : ℚ)),
                  ("wall_time_s", pyRound3 b.wall_time)] } := by
    unfold slice3Result
    rw [if_pos hst]
  refine ⟨?_, ?_, ?_⟩ <;>
    simp [solveSlice1, solveSlice2, solveSlice3, hpre, hr1, hr2, hr3, resStatKeys]

/-- Witness for `c4_stats_keys_by_slice` on the test base configuration. -/
theorem c4_stats_keys_by_slice_witness :
    resStatKeys (solveSlice1 cfgA { trivBackend with status := .FEASIBLE, val := asgA }) =
      some ["num_conflicts", "wall_time_s"] ∧
    resStatKeys (solveSlice2 cfgA { trivBackend with status := .FEASIBLE, val := asgA }) =
      some [] ∧
    resStatKeys (solveSlice3 cfgA { trivBackend with status := .FEASIBLE, val := asgA }) =
      some ["last_t", "imbalance", "lunch_penalty", "wall_time_s"] :=
  c4_stats_keys_by_slice cfgA { trivBackend with status := .FEASIBLE, val := asgA }
    (Or.inr (by decide)) (by decide)

theorem slice1Sat_last_t_nonneg (cfg : Config) (v : Assignment)
    (h : slice1Sat cfg v = true) : 0 ≤ v.last_t := by
  simp only [slice1Sat, Bool.and_eq_true] at h
  have hd := h.1.2
  simp only [lastTDomainOk, Bool.and_eq_true, decide_eq_true_eq] at hd
  exact hd.1

theorem slice1Sat_trivial_of_no_projects (cfg : Config) (hP : cfg.projects = []) :
    slice1Sat cfg trivAssignment = true := by
  have hlen : cfg.projects.length = 0 := by rw [hP]; rfl
  simp only [slice1Sat, Bool.and_eq_true]
  refine ⟨⟨⟨⟨?_, ?_⟩, ?_⟩, ?_⟩, ?_⟩
  · simp [exactlyOnceOk, hlen]
  · simp [atMostOneOk, hlen, isum]
  · simp [studentUnavailOk, hlen]
  · simp only [lastTDomainOk, trivAssignment, Bool.and_eq_true, decide_eq_true_eq]
    exact ⟨le_refl 0, le_max_right _ _⟩
  · simp [lastTEnforceOk, hlen]

/-- C5, as stated, is false for zero timeslots: on `cfgT0` (no slots, one
project) the capacity precheck fires and `solve_slice1` raises
`PrecheckError` instead of returning OPTIMAL with empty entries. -/
theorem c5_zero_slots_raises_cex :
    cfgT0.timeslots.length = 0 ∧
    resError (solveSlice1 cfgT0 trivBackend) =
      some [Issue.capacity 1 0 1, Issue.supervisorNoSlots "P1" "L1"] := by
  decide

/-- C5 (amended): with zero projects (and a configuration passing the
precheck — zero timeslots with a project pending instead raises), a
slice-1 solve whose backend reaches optimality returns OPTIMAL with an
empty entries list and objective value 0; the `x` grid is empty, though
the auxiliary `last_t` variable is still declared. -/
theorem c5_empty_projects_optimal (cfg : Config) (b : Backend)
    (hP : cfg.projects = [])
    (hpre : precheckErrors cfg = [])
    (hstat : b.status = CpStatus.OPTIMAL)
    (hsat : slice1Sat cfg b.val = true)
    (hopt : ∀ v : Assignment, slice1Sat cfg v = true → b.val.last_t ≤ v.last_t) :
    resStatus (solveSlice1 cfg b) = some "OPTIMAL" ∧
    resEntries (solveSlice1 cfg b) = some [] ∧
    resObjective (solveSlice1 cfg b) = some (some 0) := by
  have hzero : b.val.last_t = 0 := by
    have h1 : 0 ≤ b.val.last_t := slice1Sat_last_t_nonneg cfg b.val hsat
    have h2 : b.val.last_t ≤ 0 := by
      have := hopt trivAssignment (slice1Sat_trivial_of_no_projects cfg hP)
      simpa [trivAssignment] using this
    omega
  have hstn : statusName b.status = "OPTIMAL" := by rw [hstat]; rfl
  have hlen : cfg.projects.length = 0 := by rw [hP]; rfl
  have hr1 : slice1Result cfg b =
      { status := statusName b.status
        objective_value := some b.val.last_t
        entries := slice1Entries cfg b.val
        stats := [("num_conflicts", (b.num_conflicts : ℚ)),
                  ("wall_time_s", pyRound3 b.wall_time)] } := by
    unfold slice1Result
    rw [if_pos (Or.inl hstn)]
  have hent : slice1Entries cfg b.val = [] := by
    unfold slice1Entries
    simp [hlen]
  simp [solveSlice1, hpre, hr1, resStatus, resEntries, resObjective, hstn, hzero, hent]

/-- Witness for `c5_empty_projects_optimal` on a project-free
configuration with an optimal backend outcome. -/
theorem c5_empty_projects_optimal_witness :
    resStatus (solveSlice1 cfgP0 { trivBackend with status := .OPTIMAL }) = some "OPTIMAL" ∧
    resEntries (solveSlice1 cfgP0 { trivBackend with status := .OPTIMAL }) = some [] ∧
    resObjective (solveSlice1 cfgP0 { trivBackend with status := .OPTIMAL }) = some (some 0) :=
  c5_empty_projects_optimal cfgP0 { trivBackend with status := .OPTIMAL }
    (by decide) (by decide) (by decide) (by decide)
    (fun v hv => by
      have := slice1Sat_last_t_nonneg cfgP0 v hv
      simpa [trivBackend, trivAssignment] using this)

/-- C6, as stated, is false: on `cfg6`, whose three soft weights are all
zero (no soft term active), an OPTIMAL slice-3 result still carries
`objective_value = 0` — the driver always reports
`int(solver.objective_value)` on success. -/
theorem c6_objective_present_zero_weights_cex :
    cfg6.constraints.weights.span = 0 ∧
    cfg6.constraints.weights.workload_balance = 0 ∧
    cfg6.constraints.weights.lunch = 0 ∧
    slice3Sat cfg6 asg6 = true ∧
    resStatus (solveSlice3 cfg6 { trivBackend with status := .OPTIMAL, val := asg6 }) =
      some "OPTIMAL" ∧
    resObjective (solveSlice3 cfg6 { trivBackend with status := .OPTIMAL, val := asg6 }) =
      some (some 0) := by
  decide

/-- C6 (amended): in every slice-3 `SolveResult`, `objective_value` is
present if and only if the status is OPTIMAL or FEASIBLE; its value is the
weighted objective expression at the returned solution, and when all
three weights are non-positive the objective expression is the constant 0
(a pure feasibility problem) so the reported value is 0. -/
theorem c6_objective_presence (cfg : Config) (b : Backend)
    (hpre : precheckErrors cfg = []) :
    ((resStatus (solveSlice3 cfg b) = some "OPTIMAL" ∨
      resStatus (solveSlice3 cfg b) = some "FEASIBLE") →
        resObjective (solveSlice3 cfg b) = some (some (slice3Obj cfg b.val))) ∧
    (¬(resStatus (solveSlice3 cfg b) = some "OPTIMAL" ∨
       resStatus (solveSlice3 cfg b) = some "FEASIBLE") →
        resObjective (solveSlice3 cfg b) = some none) ∧
    (cfg.constraints.weights.span ≤ 0 → cfg.constraints.weights.workload_balance ≤ 0 →
      cfg.constraints.weights.lunch ≤ 0 → slice3Obj cfg b.val = 0) := by
  refine ⟨?_, ?_, ?_⟩
  · intro hst
    by_cases hname : statusName b.status = "OPTIMAL" ∨ statusName b.status = "FEASIBLE"
    · have hr3 : slice3Result cfg b =
          { status := statusName b.status
            objective_value := some (slice3Obj cfg b.val)
            entries := slice2Entries cfg b.val
            stats := [("last_t", (b.val.last_t : ℚ)),
                      ("imbalance", (b.val.imbalance : ℚ)),
                      ("lunch_penalty", (b.val.lunch_penalty : ℚ)),
                      ("wall_time_s", pyRound3 b.wall_time)] } := by
        unfold slice3Result
        rw [if_pos hname]
      simp [solveSlice3, hpre, hr3, resObjective]
    · have hr3 : slice3Result cfg b =
          { status := statusName b.status
            diagnostics := ["No feasible schedule (slice3)."] } := by
        unfold slice3Result
        rw [if_neg hname]
      simp only [solveSlice3, hpre, hr3, resStatus] at hst
      exact absurd (by simpa using hst) hname
  · intro hst
    by_cases hname : statusName b.status = "OPTIMAL" ∨ statusName b.status = "FEASIBLE"
    · exfalso
      apply hst
      have hr3 : slice3Result cfg b =
          { status := statusName b.status
            objective_value := some (slice3Obj cfg b.val)
            entries := slice2Entries cfg b.val
            stats := [("last_t", (b.val.last_t : ℚ)),
                      ("imbalance", (b.val.imbalance : ℚ)),
                      ("lunch_penalty", (b.val.lunch_penalty : ℚ)),
                      ("wall_time_s", pyRound3 b.wall_time)] } := by
        unfold slice3Result
        rw [if_pos hname]
      simp only [solveSlice3, hpre, hr3, resStatus]
      rcases hname with h | h
      · exact Or.inl (by simp [h])
      · exact Or.inr (by simp [h])
    · have hr3 : slice3Result cfg b =
          { status := statusName b.status
            diagnostics := ["No feasible schedule (slice3)."] } := by
        unfold slice3Result
        rw [if_neg hname]
      simp [solveSlice3, hpre, hr3, resObjective]
  · intro h1 h2 h3
    unfold slice3Obj
    rw [if_neg (by omega), if_neg (by omega), if_neg (by omega)]
    ring

/-- Witness for `c6_objective_presence` on the zero-weight configuration. -/
theorem c6_objective_presence_witness :
    ((resStatus (solveSlice3 cfg6 { trivBackend with status := .OPTIMAL, val := asg6 }) =
        some "OPTIMAL" ∨
      resStatus (solveSlice3 cfg6 { trivBackend with status := .OPTIMAL, val := asg6 }) =
        some "FEASIBLE") →
      resObjective (solveSlice3 cfg6 { trivBackend with status := .OPTIMAL, val := asg6 }) =
        some (some (slice3Obj cfg6 asg6))) ∧
    (¬(resStatus (solveSlice3 cfg6 { trivBackend with status := .OPTIMAL, val := asg6 }) =
        some "OPTIMAL" ∨
       resStatus (solveSlice3 cfg6 { trivBackend with status := .OPTIMAL, val := asg6 }) =
        some "FEASIBLE") →
      resObjective (solveSlice3 cfg6 { trivBackend with status := .OPTIMAL, val := asg6 }) =
        some none) ∧
    (cfg6.constraints.weights.span ≤ 0 → cfg6.constraints.weights.workload_balance ≤ 0 →
      cfg6.constraints.weights.lunch ≤ 0 → slice3Obj cfg6 asg6 = 0) :=
  c6_objective_presence cfg6 { trivBackend with status := .OPTIMAL, val := asg6 } (by decide)

/-- C7: in every slice-2 OPTIMAL/FEASIBLE result of a configuration with
`must_include_supervisor`, each entry comes from a project index `p`, and
when that project has a (non-empty) supervisor, the supervisor's lecturer
id appears in the entry's `panel_lecturer_ids` (the posted constraint
`y[p, sup] = 1` together with the panel extraction in lecturer-index
order). -/
theorem c7_supervisor_on_panel (cfg : Config) (b : Backend)
    (es : List ScheduleEntry) (e : ScheduleEntry)
    (hpre : precheckErrors cfg = [])
    (hmust : cfg.constraints.must_include_supervisor = true)
    (hsat : slice2Sat cfg b.val = true)
    (hes : resEntries (solveSlice2 cfg b) = some es)
    (hst : resStatus (solveSlice2 cfg b) = some "OPTIMAL" ∨
           resStatus (solveSlice2 cfg b) = some "FEASIBLE")
    (he : e ∈ es) :
    ∃ p, p < cfg.projects.length ∧
      e.project_id = (cfg.projects.getD p nilProject).id ∧
      ((cfg.projects.getD p nilProject).supervisor_lecturer_id ≠ "" →
        (cfg.projects.getD p nilProject).supervisor_lecturer_id ∈ e.panel_lecturer_ids) := by
  by_cases hname : statusName b.status = "OPTIMAL" ∨ statusName b.status = "FEASIBLE"
  case neg =>
    exfalso
    have hr2 : slice2Result cfg b =
        { status := statusName b.status
          diagnostics := ["No feasible schedule (slice2)."] } := by
      unfold slice2Result
      rw [if_neg hname]
    simp only [solveSlice2, hpre, hr2, resStatus] at hst
    exact hname (by simpa using hst)
  case pos =>
  have hr2 : slice2Result cfg b =
      { status := statusName b.status
        objective_value := some b.val.last_t
        entries := slice2Entries cfg b.val } := by
    unfold slice2Result
    rw [if_pos hname]
  simp only [solveSlice2, hpre, hr2, resEntries, Option.some.injEq] at hes
  rw [← hes] at he
  unfold slice2Entries at he
  obtain ⟨p, hpmem, hein⟩ := List.mem_flatMap.mp he
  obtain ⟨t, htmem, het⟩ := List.mem_filterMap.mp hein
  obtain ⟨r, hfind, heq⟩ := Option.map_eq_some'.mp het
  have hp : p < cfg.projects.length := List.mem_range.mp hpmem
  refine ⟨p, hp, ?_, ?_⟩
  · rw [← heq]
  · intro hne
    have hprojmem : cfg.projects.getD p nilProject ∈ cfg.projects := by
      rw [List.getD_eq_get? , List.get?_eq_get hp]
      exact List.get_mem _ _ _
    have hsome := supervisor_lookup_isSome cfg (cfg.projects.getD p nilProject)
      hpre hmust hprojmem hne
    obtain ⟨li, hli⟩ := Option.isSome_iff_exists.mp hsome
    have hsup : supervisorOk cfg b.val = true := by
      simp only [slice2Sat, Bool.and_eq_true] at hsat
      exact hsat.1.1.1.1.1.1.2
    have hy : b.val.y p li = true := by
      simp only [supervisorOk, hmust, if_true] at hsup
      have := List.all_eq_true.mp hsup p hpmem
      simp only [if_neg hne, hli] at this
      exact this
    have hli' : idDict (cfg.lecturers.map (fun l => l.id))
        ((cfg.projects.getD p nilProject).supervisor_lecturer_id) = some li := by
      simpa [build_index] using hli
    have hliL : li < cfg.lecturers.length := by
      have := idDict_lt_length (cfg.lecturers.map (fun l => l.id))
        ((cfg.projects.getD p nilProject).supervisor_lecturer_id) li hli'
      simpa using this
    have hid : (cfg.lecturers.getD li nilLecturer).id =
        (cfg.projects.getD p nilProject).supervisor_lecturer_id := by
      have hspec := (idDict_last_occurrence (cfg.lecturers.map (fun l => l.id))
        ((cfg.projects.getD p nilProject).supervisor_lecturer_id) li).mp hli'
      have hget := hspec.1
      rw [List.get?_map] at hget
      cases hlec : cfg.lecturers.get? li with
      | none => rw [hlec] at hget; cases hget
      | some lec =>
        rw [hlec] at hget
        have hle : lec.id = (cfg.projects.getD p nilProject).supervisor_lecturer_id := by
          simpa using hget
        rw [List.getD_eq_get?, hlec]
        exact hle
    have hmem : (cfg.projects.getD p nilProject).supervisor_lecturer_id ∈
        panelOf cfg b.val p := by
      unfold panelOf
      apply List.mem_filterMap.mpr
      exact ⟨li, List.mem_range.mpr hliL, by rw [if_pos hy, hid]⟩
    rw [← heq]
    exact hmem

/-- Witness for `c7_supervisor_on_panel`: the P1 entry of the test base
configuration carries its supervisor L1 on the panel. -/
theorem c7_supervisor_on_panel_witness :
    ∃ p, p < cfgA.projects.length ∧
      ({ project_id := "P1", timeslot_id := "TS1", room := 0,
         panel_lecturer_ids := ["L1", "L2"] } : ScheduleEntry).project_id =
        (cfgA.projects.getD p nilProject).id ∧
      ((cfgA.projects.getD p nilProject).supervisor_lecturer_id ≠ "" →
        (cfgA.projects.getD p nilProject).supervisor_lecturer_id ∈
          ({ project_id := "P1", timeslot_id := "TS1", room := 0,
             panel_lecturer_ids := ["L1", "L2"] } : ScheduleEntry).panel_lecturer_ids) :=
  c7_supervisor_on_panel cfgA { trivBackend with status := .FEASIBLE, val := asgA }
    [ { project_id := "P1", timeslot_id := "TS1", room := 0,
        panel_lecturer_ids := ["L1", "L2"] },
      { project_id := "P2", timeslot_id := "TS2", room := 0,
        panel_lecturer_ids := ["L2", "L3"] } ]
    { project_id := "P1", timeslot_id := "TS1", room := 0,
      panel_lecturer_ids := ["L1", "L2"] }
    (by decide) (by decide) (by decide) (by decide) (Or.inr (by decide)) (by decide)

/-- C8, as stated, is false: on a configuration whose timeslot collection
repeats the id TS1, `build_index` does not fail — it silently returns an
index in which TS1 maps to the later occurrence (index 1), dropping the
occurrence at index 0. No `DuplicateId` failure path exists in the code. -/
theorem c8_build_index_drops_duplicate_cex :
    cfgDup.timeslots.map (fun t => t.id) = ["TS1", "TS1"] ∧
    (build_index cfgDup).slot_id_to_idx "TS1" = some 1 ∧
    (build_index cfgDup).slot_id_to_idx "TS1" ≠ some 0 := by
  decide

/-- C8 (amended): `build_index` never fails; for every configuration it
maps an id to the index of its LAST occurrence in the collection (earlier
duplicate occurrences are silently dropped). Duplicate detection is
instead performed upstream by the loader's `_check_unique_ids`. -/
theorem c8_build_index_last_occurrence (cfg : Config) (key : String) (j : Nat) :
    (build_index cfg).slot_id_to_idx key = some j ↔
      ((cfg.timeslots.map (fun t => t.id)).get? j = some key ∧
        ∀ k, k < cfg.timeslots.length → j < k →
          (cfg.timeslots.map (fun t => t.id)).get? k ≠ some key) := by
  have h := idDict_last_occurrence (cfg.timeslots.map (fun t => t.id)) key j
  simpa [build_index] using h

/-- Witness for `c8_build_index_last_occurrence` on the duplicate-id
configuration. -/
theorem c8_build_index_last_occurrence_witness :
    (build_index cfgDup).slot_id_to_idx "TS1" = some 1 :=
  (c8_build_index_last_occurrence cfgDup "TS1" 1).mpr (by decide)

/-- C10, as stated, is false: the two slice-2 implementations are not
equivalent. On the per-day-cap configuration, an assignment placing L1 on
both panels of the same day satisfies every hard constraint posted by the
older `src/solver/slice2.py` but violates the `max_per_day` cap posted
only by `schedule_app/solver/slice2.py`; the two drivers also read
different solver-parameter attributes. -/
theorem c10_slice2_variants_differ_cex :
    oldSlice2Sat cfgD asgD = true ∧
    slice2Sat cfgD asgD = false ∧
    ¬(slice2WorkerParam = oldSlice2WorkerParam) := by
  decide

/-- C10 (amended): the newer slice-2 model refines the older one — every
assignment satisfying the `schedule_app` constraint set satisfies the
older one — and the two constraint sets coincide exactly when no lecturer
has `max_per_day` set. -/
theorem c10_slice2_variants_refinement (cfg : Config) (v : Assignment) :
    (slice2Sat cfg v = true → oldSlice2Sat cfg v = true) ∧
    ((∀ l ∈ cfg.lecturers, l.max_per_day = none) →
      slice2Sat cfg v = oldSlice2Sat cfg v) := by
  constructor
  · intro h
    simp only [slice2Sat, Bool.and_eq_true] at h
    simp only [oldSlice2Sat, Bool.and_eq_true]
    tauto
  · intro h
    have hpd : perDayOk cfg v = true := by
      unfold perDayOk
      rw [List.all_eq_true]
      intro l hl
      have hnone : (cfg.lecturers.getD l nilLecturer).max_per_day = none := by
        rcases Nat.lt_or_ge l cfg.lecturers.length with hlt | hge
        · have hmem : cfg.lecturers.getD l nilLecturer ∈ cfg.lecturers := by
            rw [List.getD_eq_get?, List.get?_eq_get hlt]
            exact List.get_mem _ _ _
          exact h _ hmem
        · rw [List.getD_eq_default _ _ hge]
          rfl
      rw [hnone]
    simp [slice2Sat, oldSlice2Sat, hpd]

/-- Witness for `c10_slice2_variants_refinement` on the test base
configuration, where no per-day cap is configured. -/
theorem c10_slice2_variants_refinement_witness :
    (slice2Sat cfgA trivAssignment = true → oldSlice2Sat cfgA trivAssignment = true) ∧
    slice2Sat cfgA trivAssignment = oldSlice2Sat cfgA trivAssignment :=
  ⟨(c10_slice2_variants_refinement cfgA trivAssignment).1,
    (c10_slice2_variants_refinement cfgA trivAssignment).2 (by decide)⟩

/-- C1: the claim describes the intended behaviour (a `num_workers` field
defaulting to 0, back-filled from `num_search_workers`), but the code has
no such field. Every slice driver reads the attribute `num_workers` from
`cfg.constraints.solver`, yet `SolverParams` declares only
`num_search_workers` (default 8) and the loader only reads the
`num_search_workers` key — so the drivers' attribute read is undefined
(`AttributeError`) on every configuration, while the older driver's read
of `num_search_workers` is defined. -/
theorem c1_num_workers_attribute_missing :
    (∀ sp : SolverParams, sp.attr slice1WorkerParam = none ∧
      sp.attr slice2WorkerParam = none ∧ sp.attr slice3WorkerParam = none) ∧
    ({} : SolverParams).num_search_workers = 8 ∧
    loadNumSearchWorkers [] = 8 ∧
    (∀ sp : SolverParams, sp.attr oldSlice2WorkerParam = some (sp.num_search_workers : ℚ)) :=
  ⟨fun _ => ⟨rfl, rfl, rfl⟩, rfl, rfl, fun _ => rfl⟩
